import Mathlib

/-!
Verification of `capture_YT_comments.py`: a shallow embedding of the batched,
concurrent comment-fetch pipeline (error classification, normalization,
retry wrapper, batch coordination, idempotent transactional storage),
with theorems settling the specification's claims about it.
-/

namespace CaptureYT

/-- The canonical persisted entity: the dict built in `fetch_comments` /
`fetch_replies` and the column tuple of `insert_comments_batch`. -/
structure Comment where
  id : String
  video_id : String
  reply_count : Nat
  like_count : Nat
  published_at : String
  author_name : String
  text : String
  author_channel_id : Option String
  author_channel_url : Option String
  is_reply : Bool
  is_reply_to : Option String
  is_reply_to_name : Option String
deriving Repr, DecidableEq

/-! ### HTML entity decoding (model of Python's `html.unescape`) -/

/-- The named/numeric character references needed here.  `html.unescape` knows the
full HTML5 table; this model tabulates the standard XML/HTML escapes, which is the
fragment the program's texts exercise.  Unknown references pass through unchanged,
as in `html.unescape`. -/
def htmlEntities : List (String × Char) :=
  [("&amp;", '&'), ("&lt;", '<'), ("&gt;", '>'), ("&quot;", '"'),
   ("&#39;", '\''), ("&apos;", '\'')]

/-- Try to read one character reference at the head of `cs`: returns the decoded
character and the number of input characters it consumed. -/
def findEntity : List (String × Char) → List Char → Option (Char × Nat)
  | [], _ => none
  | (e, c) :: rest, cs =>
      if e.toList.isPrefixOf cs then some (c, e.toList.length)
      else findEntity rest cs

/-- Fuel-driven scan replacing character references; fuel = input length suffices
because every step consumes at least one character. -/
def unescapeAux : Nat → List Char → List Char
  | 0, cs => cs
  | _ + 1, [] => []
  | fuel + 1, c :: cs =>
      match findEntity htmlEntities (c :: cs) with
      | some (d, k) => d :: unescapeAux fuel ((c :: cs).drop k)
      | none => c :: unescapeAux fuel cs

/-- Model of Python's `html.unescape` (standard library, external to the repo),
as applied by the program to `snippet["textDisplay"]`. -/
def htmlUnescape (s : String) : String :=
  String.mk (unescapeAux s.toList.length s.toList)

/-! ### Raw API records and the normalizer -/

/-- The comment-snippet fields read by the program: for a top-level comment this is
`item["snippet"]["topLevelComment"]["snippet"]`, for a reply `item["snippet"]`.
`Option` marks the fields the code reads with `.get` defaults. -/
structure RawSnippet where
  likeCount : Option Nat
  publishedAt : String
  authorDisplayName : String
  textDisplay : String
  authorChannelId : Option String
  authorChannelUrl : Option String
deriving Repr, DecidableEq

/-- One element of `data["items"]` from the commentThreads endpoint:
`item["id"]`, `item["snippet"].get("totalReplyCount", 0)` and the nested
top-level-comment snippet. -/
structure RawThreadItem where
  id : String
  totalReplyCount : Option Nat
  snippet : RawSnippet
deriving Repr, DecidableEq

/-- One element of `response["items"]` from the replies (`comments.list`) endpoint. -/
structure RawReplyItem where
  id : String
  snippet : RawSnippet
deriving Repr, DecidableEq

/-- The comment dict built per item in the success branch of `fetch_comments`
(lines 80-93 of the source). -/
def normalizeTopLevel (video_id : String) (item : RawThreadItem) : Comment :=
  { id := item.id
    video_id := video_id
    reply_count := item.totalReplyCount.getD 0
    like_count := item.snippet.likeCount.getD 0
    published_at := item.snippet.publishedAt
    author_name := item.snippet.authorDisplayName
    text := htmlUnescape item.snippet.textDisplay
    author_channel_id := item.snippet.authorChannelId
    author_channel_url := item.snippet.authorChannelUrl
    is_reply := false
    is_reply_to := none
    is_reply_to_name := none }

/-- The reply dict built per item in `fetch_replies` (lines 115-128 of the source). -/
def normalizeReply (parent_id video_id : String) (item : RawReplyItem) : Comment :=
  { id := item.id
    video_id := video_id
    reply_count := 0
    like_count := item.snippet.likeCount.getD 0
    published_at := item.snippet.publishedAt
    author_name := item.snippet.authorDisplayName
    text := htmlUnescape item.snippet.textDisplay
    author_channel_id := item.snippet.authorChannelId
    author_channel_url := item.snippet.authorChannelUrl
    is_reply := true
    is_reply_to := some parent_id
    is_reply_to_name := none }

/-- Model of `fetch_replies` (lines 104-130): maps every item of the replies
response through the normalizer, tagging each with the parent id and video id. -/
def fetchReplies (parent_id video_id : String) (items : List RawReplyItem) :
    List Comment :=
  items.map (normalizeReply parent_id video_id)

/-! ### HTTP responses, error classification and the fetcher -/

/-- The parts of a 403 error payload the code reads:
`error.errors[0].reason` and `error.message`, each defaulting to `""`. -/
structure ErrorPayload where
  reason : String
  message : String
deriving Repr, DecidableEq

/-- An HTTP response to the commentThreads request, as consumed by
`fetch_comments`: status code, parsed error payload (when status is 403) and
the parsed `items` (when status is 200). -/
structure Response where
  status : Nat
  error : ErrorPayload
  items : List RawThreadItem
deriving Repr, DecidableEq

/-- Python's `in` on strings: substring containment. -/
def containsSub (needle hay : String) : Bool :=
  hay.toList.tails.any (fun t => needle.toList.isPrefixOf t)

/-- The disabled-comments test of line 65:
`"commentsDisabled" in reason or "disabled comments" in message`. -/
def commentsDisabledIndicated (e : ErrorPayload) : Bool :=
  containsSub "commentsDisabled" e.reason || containsSub "disabled comments" e.message

/-- Log levels used by the program (`logging.info` / `logging.error`). -/
inductive LogLevel where
  | info
  | error
deriving Repr, DecidableEq

/-- Observable side effects of the pipeline: an HTTP fetch issued for a video, a
`time.sleep`, a log line, a database batch insert, a database commit. -/
inductive Event where
  | fetchCall (vid : String)
  | sleep (seconds : Nat)
  | log (level : LogLevel) (msg : String)
  | dbInsert (rows : List Comment)
  | dbCommit
deriving Repr, DecidableEq

/-- The outcome taxonomy of the response-inspection branches of `fetch_comments`
(the spec's Error Classifier; its RATE_LIMITED_OR_FORBIDDEN and OTHER_FAILURE
are one arm in the code, both retryable). -/
inductive Outcome where
  | success
  | commentsDisabled
  | retryableFailure
deriving Repr, DecidableEq

/-- The branch structure of `fetch_comments` lines 59-73, as a classification. -/
def classify (r : Response) : Outcome :=
  if r.status = 403 then
    if commentsDisabledIndicated r.error then Outcome.commentsDisabled
    else Outcome.retryableFailure
  else if r.status ≠ 200 then Outcome.retryableFailure
  else Outcome.success

/-- Model of `fetch_comments` (async, lines 49-95): issues one GET for the
video and inspects the response.  Returns the comment list together with the
trace of events (the GET itself and any log lines). -/
def fetchComments (video_id : String) (r : Response) : List Comment × List Event :=
  if r.status = 403 then
    if commentsDisabledIndicated r.error then
      ([], [Event.fetchCall video_id,
            Event.log LogLevel.info
              ("Comments are disabled for video " ++ video_id ++ ".")])
    else
      ([], [Event.fetchCall video_id,
            Event.log LogLevel.error
              ("403 Forbidden for video " ++ video_id ++ ". Reason: " ++
               r.error.reason ++ ", Message: " ++ r.error.message)])
  else if r.status ≠ 200 then
    ([], [Event.fetchCall video_id,
          Event.log LogLevel.error
            ("Failed to fetch comments for video " ++ video_id ++ ": HTTP " ++
             toString r.status)])
  else
    (r.items.map (normalizeTopLevel video_id), [Event.fetchCall video_id])

/-- Model of `process_video_batch` (lines 97-101): one fetch task per id, gathered.
`asyncio.gather` resolves with results in the order the tasks were passed, so
the result list is the per-id lists in id order; the comprehension
`[comment for result in results for comment in result if result]` flattens them
(the `if result` guard tests the list being iterated, hence never rejects). -/
def processVideoBatch (env : String → Response) (ids : List String) :
    List Comment × List Event :=
  let results := ids.map (fun vid => fetchComments vid (env vid))
  ((results.map Prod.fst).flatMap
     (fun result => result.filter (fun _ => !result.isEmpty)),
   (results.map Prod.snd).flatten)

/-! ### Retry wrapper -/

/-- The per-attempt error log of line 43. -/
def attemptFailMsg (video_id : String) (attempt : Nat) (e : String) : String :=
  "Attempt " ++ toString (attempt + 1) ++ " failed for video " ++ video_id ++
    ": " ++ e

/-- The exhaustion log of line 45. -/
def allFailedMsg (retries : Nat) (video_id : String) : String :=
  "All " ++ toString retries ++ " attempts failed for video " ++ video_id

/-- The loop body of `fetch_comments_with_retry`, with `remaining` iterations
of `range(RETRIES)` left and current loop index `attempt`
(`attempt + remaining = retries`): try the wrapped operation; on success return
its result, on a raised exception log the attempt (1-based ordinal) and sleep
`delay` before the next iteration.  When the range is exhausted, log the
exhaustion message and return `[]`.  The wrapped operation is attempt-indexed
and returns `Except` (a raised Python exception is the `.error` case). -/
def retryGo (retries delay : Nat) (video_id : String)
    (op : Nat → Except String (List Comment)) :
    Nat → Nat → List Comment × List Event
  | _, 0 => ([], [Event.log LogLevel.error (allFailedMsg retries video_id)])
  | attempt, remaining + 1 =>
      match op attempt with
      | Except.ok res => (res, [Event.fetchCall video_id])
      | Except.error e =>
          let rest := retryGo retries delay video_id op (attempt + 1) remaining
          (rest.1,
           Event.fetchCall video_id ::
             Event.log LogLevel.error (attemptFailMsg video_id attempt e) ::
             Event.sleep delay :: rest.2)

/-- Model of `fetch_comments_with_retry` (lines 38-46), with the configured
`RETRIES` and `DELAY` and the wrapped fetch operation as parameters. -/
def fetchCommentsWithRetry (retries delay : Nat) (video_id : String)
    (op : Nat → Except String (List Comment)) : List Comment × List Event :=
  retryGo retries delay video_id op 0 retries

/-! ### Store and transactions -/

/-- The `comments` table: a sequence of rows in insertion order. -/
abbrev Store := List Comment

/-- One `INSERT OR IGNORE` of a row.  Modelled from the spec: the
schema-creation step is not in the repository, and the spec fixes `id` as the
table's primary key, so the insert silently no-ops exactly when a row with the
same `id` is already present, and otherwise appends the row. -/
def insertOrIgnore (store : Store) (c : Comment) : Store :=
  if store.any (fun r => r.id == c.id) then store else store ++ [c]

/-- Model of `insert_comments_batch` (lines 133-148): `executemany` applies
the insert to each row of the batch in order. -/
def insertCommentsBatch (store : Store) (cs : List Comment) : Store :=
  cs.foldl insertOrIgnore store

/-- An open sqlite connection, modelled from the sqlite3 library semantics the
program relies on: `durable` is the committed on-disk state, `session` the view
of the connection's current transaction (uncommitted writes included). -/
structure Conn where
  durable : Store
  session : Store
deriving Repr, DecidableEq

/-- Executing `insert_comments_batch` on the connection: the rows enter the
transaction's view only. -/
def execInsertBatch (conn : Conn) (cs : List Comment) : Conn :=
  { conn with session := insertCommentsBatch conn.session cs }

/-- Model of `conn.commit()`: the transaction's view becomes durable. -/
def commit (conn : Conn) : Conn :=
  { conn with durable := conn.session }

/-- The store an observer sees if the process is interrupted with the
transaction open: uncommitted writes are rolled back, only `durable` survives. -/
def visibleAfterCrash (conn : Conn) : Store :=
  conn.durable

/-! ### Batch coordinator -/

/-- The slicing of `main` (lines 161-162):
`for i in range(0, len(video_ids), BATCH_SIZE): batch = video_ids[i:i+BATCH_SIZE]`.
`range(0, n, B)` is `List.range' 0 (ceil (n / B)) B` for `B > 0`, and
`xs[i:i+B]` is `(xs.drop i).take B`. -/
def batches (B : Nat) (ids : List α) : List (List α) :=
  (List.range' 0 ((ids.length + B - 1) / B) B).map
    (fun i => (ids.drop i).take B)

/-- The batch-completion log of line 167 (`i // BATCH_SIZE + 1 = idx + 1` for
the `idx`-th batch). -/
def insertedMsg (n idx : Nat) : String :=
  "Inserted " ++ toString n ++ " comments for batch " ++ toString (idx + 1)

/-- One iteration of the batch loop of `main` (lines 161-167): fetch the batch;
if any comments came back, insert them, commit, and log the completion line;
otherwise do nothing further. -/
def processBatchStep (env : String → Response) (idx : Nat)
    (st : Conn × List Event) (batch : List String) : Conn × List Event :=
  let res := processVideoBatch env batch
  if res.1.isEmpty then
    (st.1, st.2 ++ res.2)
  else
    (commit (execInsertBatch st.1 res.1),
     st.2 ++ res.2 ++
       [Event.dbInsert res.1, Event.dbCommit,
        Event.log LogLevel.info (insertedMsg res.1.length idx)])

/-- The batch loop of `main` over all batches, threading the connection. -/
def mainLoop (env : String → Response) (B : Nat) (ids : List String)
    (conn : Conn) : Conn × List Event :=
  (batches B ids).enum.foldl
    (fun st p => processBatchStep env p.1 st p.2) (conn, [])

/-! ### Event observations -/

/-- Tests whether an event is the HTTP fetch issued for the given video. -/
def isFetchCallFor (vid : String) : Event → Bool
  | Event.fetchCall v => v == vid
  | _ => false

/-- Tests whether an event is a `time.sleep`. -/
def isSleepEv : Event → Bool
  | Event.sleep _ => true
  | _ => false

/-- Tests whether an event touches the database (batch insert or commit). -/
def isDbEv : Event → Bool
  | Event.dbInsert _ => true
  | Event.dbCommit => true
  | _ => false

/-! ### The spec's wording of the contested claims -/

/-- The retry behavior claim C1 asserts, stated from the spec's words: when the
response for `vid` is a persistently retryable failure, processing the batch
`[vid]` invokes the underlying fetch for `vid` exactly `retries` times
(it never succeeds, so no early stop), with a sleep between consecutive
attempts (`retries - 1` sleeps). -/
def pipelineRetriesAsClaimed (retries : Nat) (env : String → Response)
    (vid : String) : Prop :=
  (processVideoBatch env [vid]).2.countP (isFetchCallFor vid) = retries ∧
  (processVideoBatch env [vid]).2.countP isSleepEv = retries - 1

/-- The sleep placement claim C3 asserts, stated from the spec's words: the
retry wrapper sleeps only between consecutive attempts (not after the last
one), so an operation failing on all `retries` attempts produces `retries - 1`
sleep events. -/
def sleepsOnlyBetweenAttempts (retries delay : Nat) (vid : String)
    (op : Nat → Except String (List Comment)) : Prop :=
  (fetchCommentsWithRetry retries delay vid op).2.countP isSleepEv = retries - 1

/-! ### Structure of the fetcher's trace -/

/-- Every branch of the fetcher emits exactly one HTTP call, followed only by
log lines. -/
theorem fetchComments_events (vid : String) (r : Response) :
    ∃ logs : List (LogLevel × String),
      (fetchComments vid r).2 =
        Event.fetchCall vid :: logs.map (fun p => Event.log p.1 p.2) := by
  unfold fetchComments
  split
  · split
    · exact ⟨[(LogLevel.info, _)], rfl⟩
    · exact ⟨[(LogLevel.error, _)], rfl⟩
  · split
    · exact ⟨[(LogLevel.error, _)], rfl⟩
    · exact ⟨[], rfl⟩

/-- No event of a fetch trace is a sleep or a database operation. -/
theorem fetchComments_snd_shape (vid : String) (r : Response) :
    ∀ e ∈ (fetchComments vid r).2, isSleepEv e = false ∧ isDbEv e = false := by
  obtain ⟨logs, h⟩ := fetchComments_events vid r
  rw [h]
  intro e he
  rcases List.mem_cons.mp he with rfl | he'
  · exact ⟨rfl, rfl⟩
  · obtain ⟨p, _, rfl⟩ := List.mem_map.mp he'
    exact ⟨rfl, rfl⟩

/-- One call of the fetcher for `v` issues exactly one HTTP call for `vid`
when `v = vid` and none otherwise. -/
theorem countP_fetchComments_fetchCall (vid v : String) (r : Response) :
    (fetchComments v r).2.countP (isFetchCallFor vid) =
      if v == vid then 1 else 0 := by
  obtain ⟨logs, h⟩ := fetchComments_events v r
  rw [h, List.countP_cons]
  have hz : (logs.map fun p => Event.log p.1 p.2).countP (isFetchCallFor vid) = 0 := by
    rw [List.countP_eq_zero]
    intro e he
    obtain ⟨p, _, rfl⟩ := List.mem_map.mp he
    simp [isFetchCallFor]
  rw [hz]
  simp [isFetchCallFor]

/-- Every comment the fetcher returns comes from normalizing an item of a
status-200 response. -/
theorem fetchComments_mem_fst (vid : String) (r : Response) (c : Comment)
    (hc : c ∈ (fetchComments vid r).1) :
    ∃ item ∈ r.items, c = normalizeTopLevel vid item := by
  unfold fetchComments at hc
  split at hc
  · split at hc <;> simp at hc
  · split at hc
    · simp at hc
    · obtain ⟨item, hi, rfl⟩ := List.mem_map.mp hc
      exact ⟨item, hi, rfl⟩

/-- Every comment the fetcher returns is tagged with the video it was fetched
for. -/
theorem fetchComments_video_id (vid : String) (r : Response) :
    ∀ c ∈ (fetchComments vid r).1, c.video_id = vid := by
  intro c hc
  obtain ⟨item, _, rfl⟩ := fetchComments_mem_fst vid r c hc
  rfl

/-! ### Structure of the batch pipeline's trace -/

/-- Dropping the guard: the `if result` test in the flattening comprehension of
`process_video_batch` tests the list being iterated, so it never rejects. -/
theorem flatMap_filter_nonempty (ls : List (List α)) :
    (ls.flatMap fun l => l.filter fun _ => !l.isEmpty) = ls.flatten := by
  induction ls with
  | nil => rfl
  | cons l ls ih =>
    cases l with
    | nil => simpa using ih
    | cons a as => simp [ih]

/-- The batch aggregate is the per-video comment lists, flattened in id order. -/
theorem processVideoBatch_fst (env : String → Response) (ids : List String) :
    (processVideoBatch env ids).1 =
      (ids.map (fun vid => (fetchComments vid (env vid)).1)).flatten := by
  simp [processVideoBatch, flatMap_filter_nonempty, Function.comp_def]

/-- The batch trace is the per-video fetch traces, concatenated in id order. -/
theorem processVideoBatch_snd (env : String → Response) (ids : List String) :
    (processVideoBatch env ids).2 =
      (ids.map (fun vid => (fetchComments vid (env vid)).2)).flatten := by
  simp [processVideoBatch, Function.comp_def]

/-- The batch pipeline issues exactly one HTTP call for `vid` per occurrence of
`vid` in the batch: there is no retrying anywhere in this path. -/
theorem countP_processVideoBatch_fetchCall (env : String → Response)
    (ids : List String) (vid : String) :
    (processVideoBatch env ids).2.countP (isFetchCallFor vid) = ids.count vid := by
  rw [processVideoBatch_snd]
  induction ids with
  | nil => rfl
  | cons a as ih =>
    rw [List.map_cons, List.flatten_cons, List.countP_append, ih,
      countP_fetchComments_fetchCall, List.count_cons]
    omega

/-- The batch pipeline never sleeps. -/
theorem countP_processVideoBatch_sleep (env : String → Response)
    (ids : List String) :
    (processVideoBatch env ids).2.countP isSleepEv = 0 := by
  rw [processVideoBatch_snd, List.countP_eq_zero]
  intro e he
  obtain ⟨l, hl, hel⟩ := List.mem_flatten.mp he
  obtain ⟨vid, _, rfl⟩ := List.mem_map.mp hl
  simp [(fetchComments_snd_shape vid (env vid) e hel).1]

/-- The batch pipeline performs no database operation. -/
theorem processVideoBatch_no_db (env : String → Response) (ids : List String) :
    ∀ e ∈ (processVideoBatch env ids).2, isDbEv e = false := by
  intro e he
  rw [processVideoBatch_snd] at he
  obtain ⟨l, hl, hel⟩ := List.mem_flatten.mp he
  obtain ⟨vid, _, rfl⟩ := List.mem_map.mp hl
  exact (fetchComments_snd_shape vid (env vid) e hel).2

/-! ### The retry wrapper's trace -/

/-- Trace of the retry loop when the wrapped operation raises on every attempt:
one fetch invocation, one ordinal-numbered error log and one sleep per
iteration of the loop, then the exhaustion log and an empty result. -/
theorem retryGo_allFail (retries delay : Nat) (vid : String)
    (op : Nat → Except String (List Comment)) (errs : Nat → String)
    (hop : ∀ k, op k = Except.error (errs k)) :
    ∀ remaining attempt : Nat,
      retryGo retries delay vid op attempt remaining =
        ([], (List.range' attempt remaining).flatMap
              (fun a => [Event.fetchCall vid,
                         Event.log LogLevel.error (attemptFailMsg vid a (errs a)),
                         Event.sleep delay]) ++
             [Event.log LogLevel.error (allFailedMsg retries vid)]) := by
  intro remaining
  induction remaining with
  | zero => intro attempt; simp [retryGo]
  | succ n ih =>
    intro attempt
    simp only [retryGo, hop attempt]
    rw [ih (attempt + 1)]
    simp [List.range'_succ]

/-- Counting events over a trace made of uniform per-attempt blocks. -/
theorem countP_flatMap_blocks (p : Event → Bool) (f : Nat → List Event) (k : Nat)
    (hf : ∀ a, (f a).countP p = k) (l : List Nat) :
    (l.flatMap f).countP p = k * l.length := by
  induction l with
  | nil => simp
  | cons a as ih =>
    rw [List.flatMap_cons, List.countP_append, hf, ih, List.length_cons]
    ring

/-! ### The batch slicing -/

/-- One step of the ceiling-division recurrence behind the batch count. -/
theorem ceil_div_sub (B N : Nat) (hB : 0 < B) (hN : 0 < N) :
    (N + B - 1) / B = (N - B + B - 1) / B + 1 := by
  rcases Nat.lt_or_ge B N with h | h
  · have h3 : N + B - 1 = (N - 1 - B) + B + B := by omega
    have h4 : N - B + B - 1 = (N - 1 - B) + B := by omega
    rw [h3, h4, Nat.add_div_right _ hB, Nat.add_div_right _ hB]
  · have h1 : N - B = 0 := Nat.sub_eq_zero_of_le h
    have h2 : (0 + B - 1) / B = 0 := Nat.div_eq_of_lt (by omega)
    have h3 : N + B - 1 = (N - 1) + B := by omega
    rw [h1, h2, h3, Nat.add_div_right _ hB, Nat.div_eq_of_lt (by omega)]

/-- The empty identifier list yields no batches. -/
theorem batches_nil (B : Nat) : batches B ([] : List α) = [] := by
  have h : (0 + B - 1) / B = 0 := by
    rcases Nat.eq_zero_or_pos B with rfl | hB
    · exact Nat.div_zero _
    · exact Nat.div_eq_of_lt (by omega)
  unfold batches
  rw [List.length_nil, h]
  rfl

/-- Unfolding the slicing by one batch: the first `B` identifiers, then the
slicing of the rest. -/
theorem batches_cons (B : Nat) (hB : 0 < B) (ids : List α) (hne : ids ≠ []) :
    batches B ids = ids.take B :: batches B (ids.drop B) := by
  unfold batches
  have hN : 0 < ids.length := List.length_pos.mpr hne
  rw [List.length_drop, ceil_div_sub B ids.length hB hN, List.range'_succ]
  simp only [List.map_cons, List.drop_zero, Nat.zero_add]
  congr 1
  have hr : ∀ k, List.range' B k B = (List.range' 0 k B).map (B + ·) := by
    intro k
    rw [List.map_add_range', Nat.add_zero]
  rw [hr, List.map_map]
  apply List.map_congr_left
  intro i _
  simp [List.drop_drop, Nat.add_comm]

/-- Concatenating the batches restores the identifier list. -/
theorem batches_flatten_aux (B : Nat) (hB : 0 < B) :
    ∀ (n : Nat) (ids : List α), ids.length ≤ n →
      (batches B ids).flatten = ids := by
  intro n
  induction n with
  | zero =>
    intro ids h
    have : ids = [] := List.length_eq_zero.mp (by omega)
    rw [this, batches_nil]
    rfl
  | succ n ih =>
    intro ids h
    cases ids with
    | nil => rw [batches_nil]; rfl
    | cons a as =>
      rw [batches_cons B hB _ (by simp), List.flatten_cons,
        ih _ (by simp only [List.length_drop, List.length_cons] at h ⊢; omega)]
      exact List.take_append_drop B (a :: as)

/-- Every batch except possibly the last has exactly `B` identifiers. -/
theorem batches_dropLast_aux (B : Nat) (hB : 0 < B) :
    ∀ (n : Nat) (ids : List α), ids.length ≤ n →
      ∀ b ∈ (batches B ids).dropLast, b.length = B := by
  intro n
  induction n with
  | zero =>
    intro ids h b hb
    have : ids = [] := List.length_eq_zero.mp (by omega)
    rw [this, batches_nil] at hb
    simp at hb
  | succ n ih =>
    intro ids h b hb
    cases ids with
    | nil => rw [batches_nil] at hb; simp at hb
    | cons a as =>
      rw [batches_cons B hB _ (by simp)] at hb
      cases hL : batches B ((a :: as).drop B) with
      | nil => rw [hL] at hb; simp at hb
      | cons y ys =>
        rw [hL, List.dropLast_cons₂] at hb
        rcases List.mem_cons.mp hb with rfl | hb2
        · have hdrop : (a :: as).drop B ≠ [] := by
            intro hc
            rw [hc, batches_nil] at hL
            exact List.noConfusion hL
          have hlt : B < (a :: as).length := by
            by_contra hle
            push_neg at hle
            exact hdrop (List.drop_eq_nil_of_le hle)
          rw [List.length_take]
          omega
        · exact ih _
            (by simp only [List.length_drop, List.length_cons] at h ⊢; omega)
            b (hL ▸ hb2)

/-- The size of the final batch: `N mod B` identifiers when that is non-zero,
`B` otherwise. -/
theorem batches_getLast_aux (B : Nat) (hB : 0 < B) :
    ∀ (n : Nat) (ids : List α), ids.length ≤ n → ids ≠ [] →
      ∃ lastb, (batches B ids).getLast? = some lastb ∧
        lastb.length = if ids.length % B = 0 then B else ids.length % B := by
  intro n
  induction n with
  | zero =>
    intro ids h hne
    exact absurd (List.length_eq_zero.mp (by omega)) hne
  | succ n ih =>
    intro ids h hne
    have hpos : 0 < ids.length := List.length_pos.mpr hne
    rw [batches_cons B hB ids hne]
    by_cases hdrop : ids.drop B = []
    · have hle : ids.length ≤ B := by
        have hl := List.length_drop B ids
        rw [hdrop] at hl
        simp at hl
        omega
      rw [hdrop, batches_nil]
      refine ⟨ids.take B, rfl, ?_⟩
      rw [List.take_of_length_le hle]
      rcases Nat.lt_or_ge ids.length B with hlt | hge
      · rw [if_neg (by rw [Nat.mod_eq_of_lt hlt]; omega), Nat.mod_eq_of_lt hlt]
      · have : ids.length = B := by omega
        rw [this, if_pos (Nat.mod_self B)]
    · have hlen : (ids.drop B).length ≤ n := by
        rw [List.length_drop]
        omega
      obtain ⟨lastb, hlast, hsize⟩ := ih (ids.drop B) hlen hdrop
      refine ⟨lastb, ?_, ?_⟩
      · rw [List.getLast?_cons, hlast]
        rfl
      · have hge : B ≤ ids.length := by
          by_contra hlt
          push_neg at hlt
          exact hdrop (List.drop_eq_nil_of_le (Nat.le_of_lt hlt))
        rw [List.length_drop] at hsize
        rw [hsize, Nat.mod_eq_sub_mod hge]

/-! ### The store -/

/-- Inserting a row whose id is already present is a no-op. -/
theorem insertOrIgnore_of_mem_id (store : Store) (c : Comment)
    (h : ∃ r ∈ store, r.id = c.id) : insertOrIgnore store c = store := by
  unfold insertOrIgnore
  rw [if_pos]
  obtain ⟨r, hr, hid⟩ := h
  exact List.any_eq_true.mpr ⟨r, hr, by simp [hid]⟩

/-- The existing rows survive an insert. -/
theorem subset_insertOrIgnore (store : Store) (c : Comment) :
    store ⊆ insertOrIgnore store c := by
  unfold insertOrIgnore
  split
  · exact fun r hr => hr
  · exact fun r hr => List.mem_append_left _ hr

/-- After an insert, some row carries the inserted id. -/
theorem insertOrIgnore_id_present (store : Store) (c : Comment) :
    ∃ r ∈ insertOrIgnore store c, r.id = c.id := by
  unfold insertOrIgnore
  split
  · rename_i hany
    obtain ⟨r, hr, hid⟩ := List.any_eq_true.mp hany
    exact ⟨r, hr, by simpa using hid⟩
  · exact ⟨c, List.mem_append_right _ (List.mem_singleton.mpr rfl), rfl⟩

/-- The existing rows survive a batch insert. -/
theorem subset_insertCommentsBatch (store : Store) (cs : List Comment) :
    store ⊆ insertCommentsBatch store cs := by
  induction cs generalizing store with
  | nil => exact fun r hr => hr
  | cons c cs ih =>
    intro r hr
    exact ih (insertOrIgnore store c) (subset_insertOrIgnore store c hr)

/-- After a batch insert, every id of the batch is present in the store. -/
theorem insertCommentsBatch_id_present (store : Store) (cs : List Comment) :
    ∀ c ∈ cs, ∃ r ∈ insertCommentsBatch store cs, r.id = c.id := by
  induction cs generalizing store with
  | nil => simp
  | cons c cs ih =>
    intro c' hc'
    rcases List.mem_cons.mp hc' with rfl | hmem
    · obtain ⟨r, hr, hid⟩ := insertOrIgnore_id_present store c'
      exact ⟨r, subset_insertCommentsBatch (insertOrIgnore store c') cs hr, hid⟩
    · exact ih (insertOrIgnore store c) c' hmem

/-- A batch insert whose ids are all already present is a no-op. -/
theorem insertCommentsBatch_noop (store : Store) (cs : List Comment)
    (h : ∀ c ∈ cs, ∃ r ∈ store, r.id = c.id) :
    insertCommentsBatch store cs = store := by
  induction cs with
  | nil => rfl
  | cons c cs ih =>
    show insertCommentsBatch (insertOrIgnore store c) cs = store
    rw [insertOrIgnore_of_mem_id store c (h c (List.mem_cons_self c cs))]
    exact ih (fun c' hc' => h c' (List.mem_cons_of_mem c hc'))

/-- Inserting the same batch twice equals inserting it once. -/
theorem insertCommentsBatch_idem (store : Store) (cs : List Comment) :
    insertCommentsBatch (insertCommentsBatch store cs) cs =
      insertCommentsBatch store cs :=
  insertCommentsBatch_noop _ _ (insertCommentsBatch_id_present store cs)

/-! ### Claims -/

/-- Claim C1, counterexample.  As stated, the claim is false on the code: for a
persistently retryable 403 response (reason `quotaExceeded`) and `RETRIES = 2`,
the batch pipeline does not invoke the underlying fetch twice with a sleep in
between — `fetch_comments_with_retry` is never called on the path
`main → process_video_batch → fetch_comments`, so the fetch runs exactly once
and nothing sleeps. -/
theorem C1_counterexample :
    ¬ pipelineRetriesAsClaimed 2
        (fun _ => { status := 403
                    error := { reason := "quotaExceeded", message := "quota" }
                    items := [] })
        "v" := by
  unfold pipelineRetriesAsClaimed
  decide

/-- Claim C1, amended.  For every HTTP 403 response whose payload does not
indicate disabled comments, and for every non-200/non-403 status, the outcome
is classified retryable: the fetch yields an empty list and one error log.
However, the batch pipeline invokes the underlying fetch exactly once per
occurrence of the identifier in the batch and never sleeps: the retry wrapper
is not applied on the invoked fetch path. -/
theorem C1_retryable_single_fetch (vid : String) (r : Response)
    (hne : r.status ≠ 200)
    (hnd : r.status = 403 → commentsDisabledIndicated r.error = false) :
    classify r = Outcome.retryableFailure ∧
    (fetchComments vid r).1 = [] ∧
    (∃ msg, (fetchComments vid r).2 =
      [Event.fetchCall vid, Event.log LogLevel.error msg]) ∧
    (∀ (env : String → Response) (ids : List String),
      (processVideoBatch env ids).2.countP (isFetchCallFor vid) = ids.count vid ∧
      (processVideoBatch env ids).2.countP isSleepEv = 0) := by
  refine ⟨?_, ?_, ?_, ?_⟩
  · by_cases h403 : r.status = 403
    · simp [classify, h403, hnd h403]
    · simp [classify, h403, hne]
  · by_cases h403 : r.status = 403
    · simp [fetchComments, h403, hnd h403]
    · simp [fetchComments, h403, hne]
  · by_cases h403 : r.status = 403
    · exact ⟨"403 Forbidden for video " ++ vid ++ ". Reason: " ++
        r.error.reason ++ ", Message: " ++ r.error.message,
        by simp [fetchComments, h403, hnd h403]⟩
    · exact ⟨"Failed to fetch comments for video " ++ vid ++ ": HTTP " ++
        toString r.status, by simp [fetchComments, h403, hne]⟩
  · intro env ids
    exact ⟨countP_processVideoBatch_fetchCall env ids vid,
           countP_processVideoBatch_sleep env ids⟩

/-- Witness for the amended claim C1 at a concrete retryable response. -/
theorem C1_witness :
    classify { status := 500, error := { reason := "", message := "" },
               items := [] } = Outcome.retryableFailure ∧
    (fetchComments "w"
      { status := 500, error := { reason := "", message := "" },
        items := [] }).1 = [] :=
  ⟨(C1_retryable_single_fetch "w" ⟨500, ⟨"", ""⟩, []⟩ (by decide)
      (fun h => absurd h (by decide))).1,
   (C1_retryable_single_fetch "w" ⟨500, ⟨"", ""⟩, []⟩ (by decide)
      (fun h => absurd h (by decide))).2.1⟩

/-- Claim C2: a 403 response indicating disabled comments is terminal for the
identifier — the fetcher returns an empty list, logs exactly one informational
(not error) line, and the pipeline spends exactly one fetch invocation and no
sleep on it. -/
theorem C2_comments_disabled (vid : String) (r : Response)
    (h403 : r.status = 403) (hdis : commentsDisabledIndicated r.error = true) :
    classify r = Outcome.commentsDisabled ∧
    (fetchComments vid r).1 = [] ∧
    (fetchComments vid r).2 =
      [Event.fetchCall vid,
       Event.log LogLevel.info
         ("Comments are disabled for video " ++ vid ++ ".")] ∧
    (∀ env : String → Response,
      (processVideoBatch env [vid]).2.countP (isFetchCallFor vid) = 1 ∧
      (processVideoBatch env [vid]).2.countP isSleepEv = 0) := by
  refine ⟨by simp [classify, h403, hdis], by simp [fetchComments, h403, hdis],
          by simp [fetchComments, h403, hdis], ?_⟩
  intro env
  constructor
  · rw [countP_processVideoBatch_fetchCall]
    simp
  · exact countP_processVideoBatch_sleep env [vid]

/-- Witness for claim C2 at a concrete disabled-comments response. -/
theorem C2_witness :
    classify { status := 403,
               error := { reason := "commentsDisabled", message := "" },
               items := [] } = Outcome.commentsDisabled ∧
    (fetchComments "d"
      { status := 403,
        error := { reason := "commentsDisabled", message := "" },
        items := [] }).1 = [] :=
  ⟨(C2_comments_disabled "d" ⟨403, ⟨"commentsDisabled", ""⟩, []⟩ rfl
      (by decide)).1,
   (C2_comments_disabled "d" ⟨403, ⟨"commentsDisabled", ""⟩, []⟩ rfl
      (by decide)).2.1⟩

/-- Claim C3, counterexample.  As stated, the claim is false on the code: with
`RETRIES = 2` and an operation raising on every attempt, the wrapper sleeps
after every failed attempt including the last one (2 sleeps), not only between
consecutive attempts (1 sleep): `time.sleep(DELAY)` sits inside the `except`
block, before the loop condition is rechecked. -/
theorem C3_counterexample :
    ¬ sleepsOnlyBetweenAttempts 2 5 "v" (fun _ => Except.error "boom") := by
  unfold sleepsOnlyBetweenAttempts
  decide

/-- Claim C3, amended.  For an operation raising on every invocation, the retry
wrapper invokes it exactly `RETRIES` times, logs each failed attempt with its
1-based ordinal, sleeps the fixed `DELAY` after every failed attempt (including
the last one, hence `RETRIES` sleeps rather than `RETRIES - 1`), logs one final
exhaustion message, and returns an empty list instead of propagating. -/
theorem C3_retry_exhaustion (retries delay : Nat) (vid : String)
    (op : Nat → Except String (List Comment)) (errs : Nat → String)
    (hop : ∀ k, op k = Except.error (errs k)) :
    (fetchCommentsWithRetry retries delay vid op).1 = [] ∧
    (fetchCommentsWithRetry retries delay vid op).2 =
      (List.range' 0 retries).flatMap
        (fun a => [Event.fetchCall vid,
                   Event.log LogLevel.error (attemptFailMsg vid a (errs a)),
                   Event.sleep delay]) ++
      [Event.log LogLevel.error (allFailedMsg retries vid)] ∧
    (fetchCommentsWithRetry retries delay vid op).2.countP (isFetchCallFor vid)
      = retries ∧
    (fetchCommentsWithRetry retries delay vid op).2.countP isSleepEv
      = retries := by
  have hh : fetchCommentsWithRetry retries delay vid op =
      ([], (List.range' 0 retries).flatMap
            (fun a => [Event.fetchCall vid,
                       Event.log LogLevel.error (attemptFailMsg vid a (errs a)),
                       Event.sleep delay]) ++
           [Event.log LogLevel.error (allFailedMsg retries vid)]) :=
    retryGo_allFail retries delay vid op errs hop retries 0
  have h2 : (fetchCommentsWithRetry retries delay vid op).2 =
      (List.range' 0 retries).flatMap
        (fun a => [Event.fetchCall vid,
                   Event.log LogLevel.error (attemptFailMsg vid a (errs a)),
                   Event.sleep delay]) ++
      [Event.log LogLevel.error (allFailedMsg retries vid)] := by
    rw [hh]
  have hcall : ∀ a : Nat,
      ([Event.fetchCall vid,
        Event.log LogLevel.error (attemptFailMsg vid a (errs a)),
        Event.sleep delay].countP (isFetchCallFor vid)) = 1 := by
    intro a
    simp [List.countP_cons, isFetchCallFor]
  have hslp : ∀ a : Nat,
      ([Event.fetchCall vid,
        Event.log LogLevel.error (attemptFailMsg vid a (errs a)),
        Event.sleep delay].countP isSleepEv) = 1 := by
    intro a
    simp [List.countP_cons, isSleepEv]
  refine ⟨by rw [hh], h2, ?_, ?_⟩
  · rw [h2, List.countP_append,
      countP_flatMap_blocks (isFetchCallFor vid) _ 1 hcall, List.length_range']
    simp [List.countP_cons, isFetchCallFor]
  · rw [h2, List.countP_append,
      countP_flatMap_blocks isSleepEv _ 1 hslp, List.length_range']
    simp [List.countP_cons, isSleepEv]

/-- Witness for the amended claim C3 at a concrete always-failing operation. -/
theorem C3_witness :
    (fetchCommentsWithRetry 2 5 "v2" (fun _ => Except.error "boom")).1 = [] ∧
    (fetchCommentsWithRetry 2 5 "v2" (fun _ => Except.error "boom")).2.countP
      (isFetchCallFor "v2") = 2 :=
  ⟨(C3_retry_exhaustion 2 5 "v2" (fun _ => Except.error "boom")
      (fun _ => "boom") (fun _ => rfl)).1,
   (C3_retry_exhaustion 2 5 "v2" (fun _ => Except.error "boom")
      (fun _ => "boom") (fun _ => rfl)).2.2.1⟩

/-- Claim C4: for batch size `B > 0`, `main`'s slicing produces
`ceil(N / B)` contiguous slices in order whose concatenation restores the
list; every slice but the last has exactly `B` elements, and the last has
`N mod B` elements when that is non-zero and `B` otherwise. -/
theorem C4_batch_partition {α : Type} (B : Nat) (ids : List α) (hB : 0 < B) :
    (batches B ids).length = (ids.length + B - 1) / B ∧
    (batches B ids).flatten = ids ∧
    (∀ b ∈ (batches B ids).dropLast, b.length = B) ∧
    (ids ≠ [] → ∃ lastb, (batches B ids).getLast? = some lastb ∧
      lastb.length = if ids.length % B = 0 then B else ids.length % B) := by
  refine ⟨?_, ?_, ?_, ?_⟩
  · unfold batches
    rw [List.length_map, List.length_range']
  · exact batches_flatten_aux B hB ids.length ids Nat.le.refl
  · exact batches_dropLast_aux B hB ids.length ids Nat.le.refl
  · exact batches_getLast_aux B hB ids.length ids Nat.le.refl

/-- Witness for claim C4 at batch size 2 over three identifiers. -/
theorem C4_witness :
    (batches 2 ["a", "b", "c"]).flatten = ["a", "b", "c"] ∧
    (∀ b ∈ (batches 2 ["a", "b", "c"]).dropLast, b.length = 2) :=
  ⟨(C4_batch_partition 2 ["a", "b", "c"] (by decide)).2.1,
   (C4_batch_partition 2 ["a", "b", "c"] (by decide)).2.2.1⟩

/-- Claim C5: inserting a row whose `id` already (uniquely) exists in the store
leaves the store unchanged — afterwards exactly one row with that `id` exists,
with the first-inserted field values — and inserting the same batch twice
equals inserting it once. -/
theorem C5_insert_if_absent (store : Store) (c : Comment)
    (h : store.countP (fun r => r.id == c.id) = 1) :
    insertOrIgnore store c = store ∧
    (insertOrIgnore store c).countP (fun r => r.id == c.id) = 1 ∧
    (∀ (s : Store) (cs : List Comment),
      insertCommentsBatch (insertCommentsBatch s cs) cs =
        insertCommentsBatch s cs) := by
  have hmem : ∃ r ∈ store, r.id = c.id := by
    have hpos : 0 < store.countP (fun r => r.id == c.id) := by omega
    obtain ⟨r, hr, hp⟩ := List.countP_pos_iff.mp hpos
    exact ⟨r, hr, by simpa using hp⟩
  have heq := insertOrIgnore_of_mem_id store c hmem
  exact ⟨heq, by rw [heq, h], fun s cs => insertCommentsBatch_idem s cs⟩

/-- Witness for claim C5: a duplicate-id row with different field values is
ignored and the first-inserted row survives. -/
theorem C5_witness :
    insertOrIgnore
      [⟨"x", "v", 0, 0, "t", "a", "first", none, none, false, none, none⟩]
      ⟨"x", "v", 1, 2, "u", "b", "second", none, none, false, none, none⟩ =
      [⟨"x", "v", 0, 0, "t", "a", "first", none, none, false, none, none⟩] :=
  (C5_insert_if_absent
    [⟨"x", "v", 0, 0, "t", "a", "first", none, none, false, none, none⟩]
    ⟨"x", "v", 1, 2, "u", "b", "second", none, none, false, none, none⟩
    (by decide)).1

/-- Claim C6: per-batch atomicity.  If the run is interrupted before the
batch's commit, the durable store is exactly what it was (in particular no row
of the batch with a fresh id is visible); after the commit every row of the
batch is visible through its id. -/
theorem C6_batch_atomicity (conn : Conn) (cs : List Comment) :
    visibleAfterCrash (execInsertBatch conn cs) = visibleAfterCrash conn ∧
    (∀ c ∈ cs, (¬ ∃ r ∈ conn.durable, r.id = c.id) →
      ¬ ∃ r ∈ visibleAfterCrash (execInsertBatch conn cs), r.id = c.id) ∧
    (∀ c ∈ cs, ∃ r ∈ (commit (execInsertBatch conn cs)).durable,
      r.id = c.id) := by
  refine ⟨rfl, ?_, ?_⟩
  · intro c _ hno h
    exact hno h
  · intro c hc
    exact insertCommentsBatch_id_present conn.session cs c hc

/-- Witness for claim C6: a committed one-row batch is visible; the same
insert without commit leaves the durable store empty. -/
theorem C6_witness :
    visibleAfterCrash
      (execInsertBatch { durable := [], session := [] }
        [⟨"x", "v", 0, 0, "t", "a", "w", none, none, false, none, none⟩]) =
      visibleAfterCrash { durable := [], session := [] } ∧
    ∃ r ∈ (commit (execInsertBatch { durable := [], session := [] }
        [⟨"x", "v", 0, 0, "t", "a", "w", none, none, false, none, none⟩])).durable,
      r.id = (⟨"x", "v", 0, 0, "t", "a", "w", none, none, false, none,
        none⟩ : Comment).id :=
  ⟨(C6_batch_atomicity ⟨[], []⟩
      [⟨"x", "v", 0, 0, "t", "a", "w", none, none, false, none, none⟩]).1,
   (C6_batch_atomicity ⟨[], []⟩
      [⟨"x", "v", 0, 0, "t", "a", "w", none, none, false, none, none⟩]).2.2
      ⟨"x", "v", 0, 0, "t", "a", "w", none, none, false, none, none⟩
      (by decide)⟩

/-- Claim C7: the normalizer HTML-entity-decodes the text field
(`"a &amp; b"` becomes `"a & b"`); a record from the replies endpoint yields
`is_reply = true` and `is_reply_to` = the supplied parent id, while a record
from the top-level-thread endpoint yields `is_reply = false` and
`is_reply_to = none`. -/
theorem C7_normalizer_round_trip :
    htmlUnescape "a &amp; b" = "a & b" ∧
    (∀ (vid : String) (e : ErrorPayload) (items : List RawThreadItem),
      (fetchComments vid { status := 200, error := e, items := items }).1 =
        items.map (normalizeTopLevel vid)) ∧
    (∀ (vid : String) (item : RawThreadItem),
      (normalizeTopLevel vid item).text = htmlUnescape item.snippet.textDisplay ∧
      (normalizeTopLevel vid item).is_reply = false ∧
      (normalizeTopLevel vid item).is_reply_to = none) ∧
    (∀ (pid vid : String) (items : List RawReplyItem),
      fetchReplies pid vid items = items.map (normalizeReply pid vid)) ∧
    (∀ (pid vid : String) (item : RawReplyItem),
      (normalizeReply pid vid item).text = htmlUnescape item.snippet.textDisplay ∧
      (normalizeReply pid vid item).is_reply = true ∧
      (normalizeReply pid vid item).is_reply_to = some pid) := by
  refine ⟨by decide, ?_, ?_, ?_, ?_⟩
  · intro vid e items
    simp [fetchComments]
  · intro vid item
    exact ⟨rfl, rfl, rfl⟩
  · intro pid vid items
    rfl
  · intro pid vid item
    exact ⟨rfl, rfl, rfl⟩

/-- Claim C8: every comment produced by either fetch path satisfies
`is_reply_to = none` iff `is_reply = false`, and every comment from the
replies path has `reply_count = 0`. -/
theorem C8_reply_link_invariant :
    (∀ (vid : String) (r : Response) (c : Comment),
      c ∈ (fetchComments vid r).1 →
        (c.is_reply_to = none ↔ c.is_reply = false)) ∧
    (∀ (pid vid : String) (items : List RawReplyItem) (c : Comment),
      c ∈ fetchReplies pid vid items →
        ((c.is_reply_to = none ↔ c.is_reply = false) ∧ c.reply_count = 0)) := by
  constructor
  · intro vid r c hc
    obtain ⟨item, _, rfl⟩ := fetchComments_mem_fst vid r c hc
    simp [normalizeTopLevel]
  · intro pid vid items c hc
    obtain ⟨item, _, rfl⟩ := List.mem_map.mp hc
    refine ⟨?_, rfl⟩
    simp [normalizeReply]

/-- Witness for claim C8 at a concrete reply record. -/
theorem C8_witness :
    ((normalizeReply "p" "v" ⟨"r1", ⟨some 2, "t", "a", "hi", none, none⟩⟩).is_reply_to
        = none ↔
      (normalizeReply "p" "v" ⟨"r1", ⟨some 2, "t", "a", "hi", none, none⟩⟩).is_reply
        = false) ∧
    (normalizeReply "p" "v" ⟨"r1", ⟨some 2, "t", "a", "hi", none, none⟩⟩).reply_count
      = 0 :=
  C8_reply_link_invariant.2 "p" "v" [⟨"r1", ⟨some 2, "t", "a", "hi", none, none⟩⟩]
    (normalizeReply "p" "v" ⟨"r1", ⟨some 2, "t", "a", "hi", none, none⟩⟩)
    (by decide)

/-- Claim C9: the batch aggregate is exactly the per-identifier comment lists
concatenated in the order the identifiers appear in the batch
(`asyncio.gather` returns results in task order), and every comment carries
the `video_id` it was fetched for. -/
theorem C9_fanin_order (env : String → Response) (ids : List String) :
    (processVideoBatch env ids).1 =
      (ids.map (fun vid => (fetchComments vid (env vid)).1)).flatten ∧
    (∀ (vid : String) (r : Response) (c : Comment),
      c ∈ (fetchComments vid r).1 → c.video_id = vid) :=
  ⟨processVideoBatch_fst env ids,
   fun vid r c hc => fetchComments_video_id vid r c hc⟩

/-- Witness for claim C9 at a concrete one-item batch. -/
theorem C9_witness :
    (normalizeTopLevel "v1"
      ⟨"c1", some 1, ⟨some 0, "t", "a", "txt", none, none⟩⟩).video_id = "v1" :=
  (C9_fanin_order
      (fun _ => ⟨200, ⟨"", ""⟩,
        [⟨"c1", some 1, ⟨some 0, "t", "a", "txt", none, none⟩⟩]⟩) ["v1"]).2
    "v1"
    ⟨200, ⟨"", ""⟩, [⟨"c1", some 1, ⟨some 0, "t", "a", "txt", none, none⟩⟩]⟩
    (normalizeTopLevel "v1" ⟨"c1", some 1, ⟨some 0, "t", "a", "txt", none, none⟩⟩)
    (by decide)

/-- Claim C10: a batch yielding zero comments changes nothing — the store
writer is not invoked, no commit is issued, no batch-completion log line is
written; the step appends exactly the fetch trace (which contains no database
event) and leaves the connection untouched. -/
theorem C10_empty_batch_frame (env : String → Response) (idx : Nat)
    (conn : Conn) (evs : List Event) (batch : List String)
    (h : (processVideoBatch env batch).1 = []) :
    processBatchStep env idx (conn, evs) batch =
      (conn, evs ++ (processVideoBatch env batch).2) ∧
    (∀ e ∈ (processVideoBatch env batch).2, isDbEv e = false) := by
  constructor
  · simp [processBatchStep, h]
  · exact processVideoBatch_no_db env batch

/-- Witness for claim C10: a disabled-comments batch leaves the connection and
store untouched. -/
theorem C10_witness :
    processBatchStep
      (fun _ => ⟨403, ⟨"commentsDisabled", ""⟩, []⟩) 0
      (⟨[], []⟩, []) ["v"] =
      (⟨[], []⟩,
       [] ++ (processVideoBatch
          (fun _ => ⟨403, ⟨"commentsDisabled", ""⟩, []⟩) ["v"]).2) :=
  (C10_empty_batch_frame (fun _ => ⟨403, ⟨"commentsDisabled", ""⟩, []⟩) 0
    ⟨[], []⟩ [] ["v"] (by decide)).1

end CaptureYT
